import Mathlib

/-!
# ARDrone: movement controller and image decoder

A shallow embedding of `ARDrone.cpp` / `ARDrone.h`.

* The controller object (`isFlying`, `camera`) is a record; every call into the
  transport library (`at_ui_reset`, `at_trim`, `at_set_radiogp_input`, ...) is
  appended to a log that is threaded through the member functions, together
  with the value `isFlying` has at the moment of the call. The trace is the
  sequence of commands of that log.
  `usleep` changes neither the object nor the transport and is left out of the
  state.
* `getImage` is embedded with its loops and its byte stores; a store outside
  the `calloc`ed buffer is a fault of the memory model.
-/

namespace ARDrone

/-! ## Movement controller -/

/-- The calls `ARDrone.cpp` makes into the transport library `control/app.h`.
The axis arguments of `at_set_radiogp_input` are the values of the `double`
expressions passed by the caller. -/
inductive ATCommand where
  | at_zap (camera : Int)
  | at_ui_reset
  | at_trim
  | at_ui_pad_start_pressed
  | at_comwdg
  | at_set_radiogp_input (a b c d : ℚ) (hover : Int)
  deriving DecidableEq

/-- The private fields of `class ARDrone`, with the log of the transport: the
commands issued so far, in order, each paired with the value of `isFlying` at
the moment it was issued. -/
structure Drone where
  isFlying : Bool
  camera : Int
  log : List (ATCommand × Bool)
  deriving DecidableEq

/-- The commands issued to the transport so far, in order. -/
def Drone.trace (s : Drone) : List ATCommand := s.log.map Prod.fst

/-- Appends one transport call to the log, stamped with the current flight
state. -/
def issue (c : ATCommand) (s : Drone) : Drone :=
  { s with log := s.log ++ [(c, s.isFlying)] }

/-- Integral promotion of a C++ `bool`. -/
def boolToInt (b : Bool) : Int := if b then 1 else 0

def speedUp : ℚ := 1 / 2
def speedDown : ℚ := 1 / 2
def speedAhead : ℚ := 3 / 20
def speedRight : ℚ := 1 / 2
def speedLeft : ℚ := 1 / 2

/-- Embedding of `ARDrone::sendCommands`. -/
def sendCommands (roll pitch gaz yaw : ℚ) (s : Drone) : Drone :=
  issue (.at_set_radiogp_input (roll * 33000) (pitch * 33000) (-gaz * 33000) (yaw * 33000) 0) s

/-- Embedding of `ARDrone::stopAndHover`. -/
def stopAndHover (s : Drone) : Drone :=
  issue (.at_set_radiogp_input 0 0 0 0 1) s

/-- Embedding of `ARDrone::takeoff`. The guard is `if(~isFlying)`: the `bool` is promoted to
`int`, complemented bitwise, and the result is tested against zero. -/
def takeoff (s : Drone) : Drone :=
  if ~~~ (boolToInt s.isFlying) ≠ 0 then
    let s := issue .at_ui_reset s
    let s := issue .at_trim s
    let s := issue .at_ui_pad_start_pressed s
    let s := issue .at_comwdg s
    let s := { s with isFlying := true }
    stopAndHover s
  else s

/-- Embedding of `ARDrone::land`. -/
def land (s : Drone) : Drone :=
  if s.isFlying then
    let s := issue .at_ui_pad_start_pressed s
    { s with isFlying := false }
  else s

/-- Embedding of `ARDrone::moveUp`. -/
def moveUp (_cm : Int) (s : Drone) : Drone :=
  stopAndHover (sendCommands 0 0 speedUp 0 s)

/-- Embedding of `ARDrone::moveDown`. -/
def moveDown (_cm : Int) (s : Drone) : Drone :=
  stopAndHover (sendCommands 0 0 (-speedDown) 0 s)

/-- Embedding of `ARDrone::moveAhead`. -/
def moveAhead (_cm : Int) (s : Drone) : Drone :=
  stopAndHover (sendCommands 0 (-speedAhead) 0 0 s)

/-- Embedding of `ARDrone::turnRight`. -/
def turnRight (s : Drone) : Drone :=
  stopAndHover (sendCommands 0 0 0 speedRight s)

/-- Embedding of `ARDrone::turnLeft`. -/
def turnLeft (s : Drone) : Drone :=
  stopAndHover (sendCommands 0 0 0 (-speedLeft) s)

/-- Embedding of `ARDrone::switchCamera`. -/
def switchCamera (s : Drone) : Drone :=
  let s := { s with camera := Int.tmod (s.camera + 1) 2 }
  issue (.at_zap s.camera) s

/-- The neutral hover command: all four axes zero, hover flag set. -/
def neutralHover : ATCommand := .at_set_radiogp_input 0 0 0 0 1

/-- An actuation command is an `at_set_radiogp_input` call with a non-zero axis. -/
def isActuation : ATCommand → Bool
  | .at_set_radiogp_input a b c d _ => decide (a ≠ 0 ∨ b ≠ 0 ∨ c ≠ 0 ∨ d ≠ 0)
  | _ => false

/-- The operand of `log2` in `moveAhead`: `cm/100` on two `int`s, which
truncates toward zero. -/
def moveAheadLog2Arg (cm : Int) : Int := Int.tdiv cm 100

/-- The kinds of value a `double` can hold, as far as `moveAhead` tells them
apart. -/
inductive DoubleClass where
  | nan
  | negInfinity
  | finiteNonneg
  deriving DecidableEq

/-- Class of `log2(k)` for an `int` operand `k` converted to `double`
(C11 7.12.6.10 and F.10.3.10): a domain error for `k < 0`, minus infinity for
`k = 0`, a finite non-negative number for `k ≥ 1`. -/
def log2Class (k : Int) : DoubleClass :=
  if k < 0 then .nan else if k = 0 then .negInfinity else .finiteNonneg

/-- Class of `x + 1.415`: adding a positive finite constant keeps the class. -/
def addPositiveConstClass (x : DoubleClass) : DoubleClass := x

/-- Class of `secondsNeeded = log2(cm/100) + 1.415` in `moveAhead`. -/
def moveAheadSecondsClass (cm : Int) : DoubleClass :=
  addPositiveConstClass (log2Class (moveAheadLog2Arg cm))

/-! ## Image decoder -/

/-- Faults of the byte-buffer model. -/
inductive Fault where
  | writeOutOfBounds (index : Nat)
  deriving DecidableEq

def imageWidth : Nat := 320
def imageHeight : Nat := 240
def channels : Nat := 3
def imageSize : Nat := imageWidth * imageHeight * channels

/-- Read of one `unsigned char` at offset `k`. -/
def load (buf : Nat → Nat) (k : Nat) : Nat := buf k % 256

/-- Store of an `int` value into the `unsigned char` at offset `k` of a buffer of
`size` bytes. The value is reduced modulo 256; an offset past the end of the
buffer is a fault. -/
def store (size : Nat) (buf : Nat → Nat) (k v : Nat) : Except Fault (Nat → Nat) :=
  if k < size then .ok (fun j => if j = k then v % 256 else buf j)
  else .error (.writeOutOfBounds k)

/-- The loop `for (int i = start; i < start + n; i++) body`, stopping at the
first fault. -/
def forLoop {σ : Type} (body : Nat → σ → Except Fault σ) : Nat → Nat → σ → Except Fault σ
  | 0, _, s => .ok s
  | n + 1, i, s =>
    match body i s with
    | .ok s' => forLoop body n (i + 1) s'
    | .error e => .error e

/-- Body of the loop of the `picture_width == 320` branch. -/
def nativePixel (picbuf : Nat → Nat) (i : Nat) (rawImage : Nat → Nat) :
    Except Fault (Nat → Nat) := do
  let rawImage ← store imageSize rawImage (3 * i) (load picbuf (2 * i + 1) &&& 0xf8)
  let rawImage ← store imageSize rawImage (3 * i + 1)
    ((load picbuf (2 * i + 1) &&& 0x07) * 32 + (load picbuf (2 * i) &&& 0xe0) / 8)
  store imageSize rawImage (3 * i + 2) ((load picbuf (2 * i) &&& 0x1f) * 8)

/-- Body of the inner loop of the `else` branch, at column `w` and row `h`. -/
def offsetPixel (picbuf : Nat → Nat) (w h : Nat) (rawImage : Nat → Nat) :
    Except Fault (Nat → Nat) := do
  let rawImage ← store imageSize rawImage (3 * ((h + 58) * imageWidth + w + 78) + 0)
    (load picbuf (2 * (h * imageWidth + w) + 1) &&& 0xf8)
  let rawImage ← store imageSize rawImage (3 * ((h + 58) * imageWidth + w + 78) + 1)
    ((load picbuf (2 * (h * imageWidth + w) + 1) &&& 0x07) * 32
      + (load picbuf (2 * (h * imageWidth + w)) &&& 0xe0) / 8)
  store imageSize rawImage (3 * ((h + 58) * imageWidth + w + 78) + 2)
    ((load picbuf (2 * (h * imageWidth + w)) &&& 0x1f) * 8)

/-- Body of the loop that copies `rawImage` into the `cv::Mat`, reversing the
three components of each pixel. -/
def reorderPixel (rawImage : Nat → Nat) (i : Nat) (pointerImage : Nat → Nat) :
    Except Fault (Nat → Nat) := do
  let pointerImage ← store (240 * 320 * 3) pointerImage (3 * i) (load rawImage (3 * i + 2))
  let pointerImage ← store (240 * 320 * 3) pointerImage (3 * i + 1) (load rawImage (3 * i + 1))
  store (240 * 320 * 3) pointerImage (3 * i + 2) (load rawImage (3 * i))

/-- Embedding of `ARDrone::getImage`. `picture_buf`, `picture_width` and `picture_height` are
the globals of `control/app.h`; `matData` is the content of the freshly
allocated `cv::Mat(240, 320, CV_8UC3)`, which is not initialised. The result is
the content of the returned `cv::Mat`. -/
def getImage (picture_buf : Nat → Nat) (picture_width picture_height : Int)
    (matData : Nat → Nat) : Except Fault (Nat → Nat) := do
  let rawImage : Nat → Nat := fun _ => 0
  let picbuf := picture_buf
  let rawImage ←
    if picture_width = 320 then
      forLoop (nativePixel picbuf) (imageWidth * imageHeight) 0 rawImage
    else
      forLoop (fun w rawImage =>
        forLoop (fun h rawImage => offsetPixel picbuf w h rawImage)
          picture_height.toNat 0 rawImage) picture_width.toNat 0 rawImage
  forLoop (reorderPixel rawImage) (240 * 320) 0 matData

/-- What every directional maneuver does to the trace: between the state `s`
before and the state `t` after, one actuation command and then the neutral
hover command were issued, so that the neutral hover command is the last one. -/
def EndsInHover (s t : Drone) : Prop :=
  t.trace.getLast? = some neutralHover ∧
    ∃ a, isActuation a = true ∧ t.trace = s.trace ++ [a, neutralHover]

/-- The controller right after construction, with nothing sent yet. -/
def grounded : Drone := { isFlying := false, camera := 0, log := [] }

/-- An airborne controller, with nothing sent yet. -/
def airborne : Drone := { isFlying := true, camera := 0, log := [] }

/-- Byte that the unpacking formula stores for source pixel `i` in component
`ch` of `rawImage` (0: from the top five bits of the high byte, 1: from the
middle six bits, 2: from the low five bits of the low byte). -/
def unpack (picbuf : Nat → Nat) (i ch : Nat) : Nat :=
  if ch = 0 then (load picbuf (2 * i + 1) &&& 0xf8) % 256
  else if ch = 1 then
    ((load picbuf (2 * i + 1) &&& 0x07) * 32 + (load picbuf (2 * i) &&& 0xe0) / 8) % 256
  else ((load picbuf (2 * i) &&& 0x1f) * 8) % 256

/-- Content of `rawImage` on the `else` branch once `cols` columns of `rows`
rows each are done and the next column has reached row `extra`: byte `k`
belongs to output pixel `k / 3`, at row `k / 3 / 320` and column `k / 3 % 320`;
inside the filled region it holds the component of the source pixel at
`(row - 58) * 320 + (column - 78)`, elsewhere it is zero. -/
def windowRaw (picbuf : Nat → Nat) (rows cols extra k : Nat) : Nat :=
  if (58 ≤ k / 3 / 320 ∧ k / 3 / 320 < 58 + rows ∧ 78 ≤ k / 3 % 320 ∧ k / 3 % 320 < 78 + cols) ∨
      (k / 3 % 320 = 78 + cols ∧ 58 ≤ k / 3 / 320 ∧ k / 3 / 320 < 58 + extra) then
    unpack picbuf ((k / 3 / 320 - 58) * 320 + (k / 3 % 320 - 78)) (k % 3)
  else 0

/-! ## Theorems: movement controller -/

theorem takeoff_guard (b : Bool) : ~~~ (boolToInt b) ≠ 0 := by
  cases b <;> decide

theorem trace_issue (c : ATCommand) (s : Drone) : (issue c s).trace = s.trace ++ [c] := by
  simp [issue, Drone.trace]

theorem isFlying_issue (c : ATCommand) (s : Drone) : (issue c s).isFlying = s.isFlying :=
  rfl

theorem takeoff_eq (s : Drone) :
    takeoff s = stopAndHover
      { isFlying := true, camera := s.camera,
        log := s.log ++ [(.at_ui_reset, s.isFlying), (.at_trim, s.isFlying),
          (.at_ui_pad_start_pressed, s.isFlying), (.at_comwdg, s.isFlying)] } := by
  simp [takeoff, takeoff_guard, issue, stopAndHover]

theorem endsInHover_intro (s : Drone) (a : ATCommand) (ha : isActuation a = true) :
    EndsInHover s (stopAndHover (issue a s)) := by
  refine ⟨?_, a, ha, ?_⟩ <;> simp [stopAndHover, trace_issue, neutralHover]

/-- C5: each of `moveUp`, `moveDown`, `moveAhead`, `turnLeft` and `turnRight`,
for every magnitude and from every controller state, issues one actuation
command and then, through `stopAndHover`, the neutral hover command
`at_set_radiogp_input(0, 0, 0, 0, 1)`, which is the last command on the
transport. -/
theorem maneuver_ends_in_neutral_hover (cm : Int) (s : Drone) :
    EndsInHover s (moveUp cm s) ∧ EndsInHover s (moveDown cm s) ∧
    EndsInHover s (moveAhead cm s) ∧ EndsInHover s (turnLeft s) ∧
    EndsInHover s (turnRight s) ∧
    neutralHover = ATCommand.at_set_radiogp_input 0 0 0 0 1 := by
  refine ⟨?_, ?_, ?_, ?_, ?_, rfl⟩ <;>
    exact endsInHover_intro s _ (by
      simp [isActuation, speedUp, speedDown, speedAhead, speedLeft, speedRight])

/-- C6: from every controller state `takeoff` followed by `land` leaves
`isFlying == false`; and `land` on a grounded controller changes nothing: no
command is issued, `isFlying` and `camera` keep their values. -/
theorem takeoff_land_grounded (s : Drone) :
    (land (takeoff s)).isFlying = false ∧
    (s.isFlying = false →
      land s = s ∧ (land s).trace = s.trace ∧ (land s).isFlying = false ∧
        (land s).camera = s.camera) := by
  constructor
  · simp [takeoff_eq, land, stopAndHover, issue]
  · intro h
    simp [land, h]

theorem takeoff_land_grounded_witness :
    grounded.isFlying = false ∧ land grounded = grounded ∧
      (land (takeoff grounded)).isFlying = false :=
  ⟨rfl, ((takeoff_land_grounded grounded).2 rfl).1, (takeoff_land_grounded grounded).1⟩

/-- C7 (what the code does): `takeoff` on an airborne controller is not a
no-op. The guard `~isFlying` is non-zero for both values of `isFlying`, so the
five commands are issued again, and two takeoffs in a row issue ten commands. -/
theorem takeoff_while_airborne_reissues :
    (takeoff airborne).trace =
      [.at_ui_reset, .at_trim, .at_ui_pad_start_pressed, .at_comwdg,
        .at_set_radiogp_input 0 0 0 0 1] ∧
    (takeoff (takeoff grounded)).trace =
      [.at_ui_reset, .at_trim, .at_ui_pad_start_pressed, .at_comwdg,
        .at_set_radiogp_input 0 0 0 0 1,
        .at_ui_reset, .at_trim, .at_ui_pad_start_pressed, .at_comwdg,
        .at_set_radiogp_input 0 0 0 0 1] ∧
    (takeoff (takeoff grounded)).trace ≠ (takeoff grounded).trace := by
  simp [takeoff_eq, stopAndHover, issue, airborne, grounded, Drone.trace]

/-- C8 (as stated, refuted): `moveUp(100)` on a grounded controller issues the
actuation command `at_set_radiogp_input(0, 0, -16500, 0, 0)`. -/
theorem moveUp_grounded_actuates :
    grounded.isFlying = false ∧
    ATCommand.at_set_radiogp_input 0 0 (-16500) 0 0 ∈ (moveUp 100 grounded).trace ∧
    isActuation (ATCommand.at_set_radiogp_input 0 0 (-16500) 0 0) = true ∧
    ¬ (∀ c ∈ (moveUp 100 grounded).trace, isActuation c = false) := by
  have h : (moveUp 100 grounded).trace =
      [.at_set_radiogp_input 0 0 (-16500) 0 0, .at_set_radiogp_input 0 0 0 0 1] := by
    simp [moveUp, stopAndHover, sendCommands, issue, grounded, speedUp, Drone.trace]
    norm_num
  refine ⟨rfl, ?_, ?_, ?_⟩
  · simp [h]
  · simp [isActuation]
  · intro hall
    have := hall (.at_set_radiogp_input 0 0 (-16500) 0 0) (by simp [h])
    simp [isActuation] at this

/-- C8 (amended): the directional maneuvers do not look at `isFlying`. On a
grounded controller each one issues its actuation command followed by the
neutral hover command, and leaves `isFlying == false`. -/
theorem maneuver_when_grounded (cm : Int) (s : Drone) (h : s.isFlying = false) :
    ((moveUp cm s).isFlying = false ∧ (moveUp cm s).trace = s.trace ++
      [.at_set_radiogp_input 0 0 (-16500) 0 0, .at_set_radiogp_input 0 0 0 0 1]) ∧
    ((moveDown cm s).isFlying = false ∧ (moveDown cm s).trace = s.trace ++
      [.at_set_radiogp_input 0 0 16500 0 0, .at_set_radiogp_input 0 0 0 0 1]) ∧
    ((moveAhead cm s).isFlying = false ∧ (moveAhead cm s).trace = s.trace ++
      [.at_set_radiogp_input 0 (-4950) 0 0 0, .at_set_radiogp_input 0 0 0 0 1]) ∧
    ((turnLeft s).isFlying = false ∧ (turnLeft s).trace = s.trace ++
      [.at_set_radiogp_input 0 0 0 (-16500) 0, .at_set_radiogp_input 0 0 0 0 1]) ∧
    ((turnRight s).isFlying = false ∧ (turnRight s).trace = s.trace ++
      [.at_set_radiogp_input 0 0 0 16500 0, .at_set_radiogp_input 0 0 0 0 1]) := by
  simp [moveUp, moveDown, moveAhead, turnLeft, turnRight, stopAndHover, sendCommands, issue,
    h, speedUp, speedDown, speedAhead, speedLeft, speedRight, Drone.trace]
  norm_num

theorem maneuver_when_grounded_witness :
    grounded.isFlying = false ∧ (moveAhead 50 grounded).isFlying = false ∧
    (moveAhead 50 grounded).trace = grounded.trace ++
      [.at_set_radiogp_input 0 (-4950) 0 0 0, .at_set_radiogp_input 0 0 0 0 1] :=
  ⟨rfl, (maneuver_when_grounded 50 grounded rfl).2.2.1⟩

/-- C9: `takeoff` on a grounded controller issues exactly `at_ui_reset`,
`at_trim`, `at_ui_pad_start_pressed`, `at_comwdg`,
`at_set_radiogp_input(0, 0, 0, 0, 1)`, in this order and nothing else, and ends
airborne. The log shows the flight state at each command: `isFlying` is still
false when the first four are issued and is already true when the neutral
hover command is issued. -/
theorem takeoff_sequence (s : Drone) (h : s.isFlying = false) :
    (takeoff s).trace = s.trace ++
      [.at_ui_reset, .at_trim, .at_ui_pad_start_pressed, .at_comwdg,
        .at_set_radiogp_input 0 0 0 0 1] ∧
    (takeoff s).isFlying = true ∧
    (takeoff s).log = s.log ++
      [(.at_ui_reset, false), (.at_trim, false), (.at_ui_pad_start_pressed, false),
        (.at_comwdg, false), (.at_set_radiogp_input 0 0 0 0 1, true)] := by
  refine ⟨?_, ?_, ?_⟩ <;> simp [takeoff_eq, stopAndHover, issue, Drone.trace, h]

theorem takeoff_sequence_witness :
    grounded.isFlying = false ∧
    (takeoff grounded).trace =
      [.at_ui_reset, .at_trim, .at_ui_pad_start_pressed, .at_comwdg,
        .at_set_radiogp_input 0 0 0 0 1] ∧
    (takeoff grounded).isFlying = true ∧
    (takeoff grounded).log =
      [(.at_ui_reset, false), (.at_trim, false), (.at_ui_pad_start_pressed, false),
        (.at_comwdg, false), (.at_set_radiogp_input 0 0 0 0 1, true)] :=
  ⟨rfl, (takeoff_sequence grounded rfl).1, (takeoff_sequence grounded rfl).2.1,
    (takeoff_sequence grounded rfl).2.2⟩

/-- C4 (what the code does): for `cm = 50` the operand of `log2` is the
integer quotient `50/100 = 0`, so `secondsNeeded = log2(0) + 1.415` is minus
infinity: neither finite nor non-negative. The same holds for `cm = 1` and
`cm = 99`. -/
theorem moveAhead_duration_50 :
    moveAheadLog2Arg 50 = 0 ∧ moveAheadSecondsClass 50 = DoubleClass.negInfinity ∧
    moveAheadSecondsClass 1 = DoubleClass.negInfinity ∧
    moveAheadSecondsClass 99 = DoubleClass.negInfinity := by
  decide

/-! ## Theorems: image decoder -/

theorem imageSize_eq : imageSize = 230400 := rfl

theorem and_0x1f (x : Nat) : x &&& 0x1f = x % 32 :=
  Nat.and_pow_two_sub_one_eq_mod x 5

theorem and_0x07 (x : Nat) : x &&& 0x07 = x % 8 :=
  Nat.and_pow_two_sub_one_eq_mod x 3

set_option maxRecDepth 100000 in
theorem and_0xf8 : ∀ x : Nat, x < 256 → x &&& 0xf8 = x / 8 * 8 := by
  decide

set_option maxRecDepth 100000 in
theorem and_0xe0 : ∀ x : Nat, x < 256 → x &&& 0xe0 = x / 32 * 32 := by
  decide

theorem load_lt (buf : Nat → Nat) (k : Nat) : load buf k < 256 :=
  Nat.mod_lt _ (by decide)

/-- Invariant rule for `forLoop`: an invariant that every iteration in range
preserves without faulting holds after the loop, and the loop does not fault. -/
theorem forLoop_inv {σ : Type} (body : Nat → σ → Except Fault σ) (Inv : Nat → σ → Prop) :
    ∀ (n i : Nat) (s : σ), Inv i s →
      (∀ j t, i ≤ j → j < i + n → Inv j t → ∃ t', body j t = .ok t' ∧ Inv (j + 1) t') →
      ∃ s', forLoop body n i s = .ok s' ∧ Inv (i + n) s' := by
  intro n
  induction n with
  | zero =>
    intro i s h0 _
    exact ⟨s, rfl, h0⟩
  | succ n ih =>
    intro i s h0 hstep
    obtain ⟨t, ht, hinv⟩ := hstep i s (Nat.le_refl i) (by omega) h0
    obtain ⟨s', hs', hinv'⟩ := ih (i + 1) t hinv
      (fun j u hj hlt hu => hstep j u (by omega) (by omega) hu)
    refine ⟨s', ?_, ?_⟩
    · simp only [forLoop, ht, hs']
    · have : i + (n + 1) = i + 1 + n := by omega
      rw [this]
      exact hinv'

/-- Sequencing two steps that both succeed. -/
theorem bind_ok_eq {α β : Type} (x : Except Fault α) (f : α → Except Fault β) (a : α) (b : β)
    (hx : x = .ok a) (hf : f a = .ok b) : (x >>= f) = .ok b := by
  subst hx
  exact hf

/-- The two passes of `getImage` on each branch: unpacking into `rawImage`,
then copying into the `cv::Mat`. -/
theorem getImage_unfold (picbuf : Nat → Nat) (width height : Int) (matData : Nat → Nat) :
    getImage picbuf width height matData =
      if width = 320 then
        forLoop (nativePixel picbuf) (imageWidth * imageHeight) 0 (fun _ => 0) >>=
          fun rawImage => forLoop (reorderPixel rawImage) (240 * 320) 0 matData
      else
        forLoop (fun w rawImage =>
          forLoop (fun h rawImage => offsetPixel picbuf w h rawImage)
            height.toNat 0 rawImage) width.toNat 0 (fun _ => 0) >>=
          fun rawImage => forLoop (reorderPixel rawImage) (240 * 320) 0 matData :=
  rfl

theorem nativePixel_ok (picbuf : Nat → Nat) (i : Nat) (m : Nat → Nat)
    (h : 3 * i + 2 < imageSize) :
    nativePixel picbuf i m = .ok (fun j =>
      if j = 3 * i + 2 then unpack picbuf i 2
      else if j = 3 * i + 1 then unpack picbuf i 1
      else if j = 3 * i then unpack picbuf i 0
      else m j) := by
  have h0 : 3 * i < imageSize := by omega
  have h1 : 3 * i + 1 < imageSize := by omega
  simp only [nativePixel, store, if_pos h0, if_pos h1, if_pos h, bind, Except.bind]
  rfl

theorem unpack_lt (picbuf : Nat → Nat) (i ch : Nat) : unpack picbuf i ch < 256 := by
  unfold unpack
  split_ifs <;> exact Nat.mod_lt _ (by decide)

theorem reorderPixel_ok (raw : Nat → Nat) (i : Nat) (m : Nat → Nat)
    (h : 3 * i + 2 < 230400) :
    reorderPixel raw i m = .ok (fun j =>
      if j = 3 * i + 2 then load raw (3 * i) % 256
      else if j = 3 * i + 1 then load raw (3 * i + 1) % 256
      else if j = 3 * i then load raw (3 * i + 2) % 256
      else m j) := by
  have h0 : 3 * i < 240 * 320 * 3 := by omega
  have h1 : 3 * i + 1 < 240 * 320 * 3 := by omega
  have h2 : 3 * i + 2 < 240 * 320 * 3 := by omega
  simp only [reorderPixel, store, if_pos h0, if_pos h1, if_pos h2, bind, Except.bind]

/-- The native loop fills `rawImage` with the unpacked components of the 76800
source pixels, in source order. -/
theorem native_loop (picbuf : Nat → Nat) :
    ∃ raw, forLoop (nativePixel picbuf) (imageWidth * imageHeight) 0 (fun _ => 0) = .ok raw ∧
      ∀ k, raw k = if k < 230400 then unpack picbuf (k / 3) (k % 3) else 0 := by
  have key := forLoop_inv (nativePixel picbuf)
    (fun n m => ∀ k, m k = if k < 3 * n then unpack picbuf (k / 3) (k % 3) else 0)
    (imageWidth * imageHeight) 0 (fun _ => 0) (by intro k; simp) (by
      intro j t _ hj hinv
      have hj' : j < 76800 := by simpa [imageWidth, imageHeight] using hj
      refine ⟨_, nativePixel_ok picbuf j t (by rw [imageSize_eq]; omega), ?_⟩
      intro k
      show (if k = 3 * j + 2 then _ else if k = 3 * j + 1 then _ else if k = 3 * j then _
        else t k) = _
      by_cases h2 : k = 3 * j + 2
      · have a : k / 3 = j := by omega
        have b : k % 3 = 2 := by omega
        have c : k < 3 * (j + 1) := by omega
        rw [if_pos h2, if_pos c, a, b]
      · by_cases h1 : k = 3 * j + 1
        · have a : k / 3 = j := by omega
          have b : k % 3 = 1 := by omega
          have c : k < 3 * (j + 1) := by omega
          rw [if_neg h2, if_pos h1, if_pos c, a, b]
        · by_cases h0 : k = 3 * j
          · have a : k / 3 = j := by omega
            have b : k % 3 = 0 := by omega
            have c : k < 3 * (j + 1) := by omega
            rw [if_neg h2, if_neg h1, if_pos h0, if_pos c, a, b]
          · rw [if_neg h2, if_neg h1, if_neg h0, hinv k]
            by_cases c : k < 3 * j
            · rw [if_pos c, if_pos (by omega)]
            · rw [if_neg c, if_neg (by omega)])
  obtain ⟨raw, hraw, hinv⟩ := key
  refine ⟨raw, hraw, ?_⟩
  intro k
  rw [hinv k]
  simp [imageWidth, imageHeight]

/-- The final loop writes every byte of the `cv::Mat`: byte `k` receives the
component of the same pixel of `rawImage` in reversed position. -/
theorem reorder_loop (raw matData : Nat → Nat) :
    ∃ out, forLoop (reorderPixel raw) (240 * 320) 0 matData = .ok out ∧
      ∀ k, k < 230400 → out k = load raw (3 * (k / 3) + (2 - k % 3)) := by
  have key := forLoop_inv (reorderPixel raw)
    (fun n m => ∀ k, k < 3 * n → m k = load raw (3 * (k / 3) + (2 - k % 3)))
    (240 * 320) 0 matData (by intro k hk; omega) (by
      intro j t _ hj hinv
      refine ⟨_, reorderPixel_ok raw j t (by omega), ?_⟩
      intro k hk
      have hmod : ∀ x, load raw x % 256 = load raw x := fun x =>
        Nat.mod_eq_of_lt (load_lt raw x)
      simp only [hmod]
      by_cases h2 : k = 3 * j + 2
      · have a : 3 * (k / 3) + (2 - k % 3) = 3 * j := by omega
        rw [if_pos h2, a]
      · by_cases h1 : k = 3 * j + 1
        · have a : 3 * (k / 3) + (2 - k % 3) = 3 * j + 1 := by omega
          rw [if_neg h2, if_pos h1, a]
        · by_cases h0 : k = 3 * j
          · have a : 3 * (k / 3) + (2 - k % 3) = 3 * j + 2 := by omega
            rw [if_neg h2, if_neg h1, if_pos h0, a]
          · rw [if_neg h2, if_neg h1, if_neg h0]
            exact hinv k (by omega))
  obtain ⟨out, hout, hinv⟩ := key
  exact ⟨out, hout, fun k hk => hinv k (by omega)⟩

/-- Result of `getImage` on the `picture_width == 320` branch: no fault, and
byte `k` of the output is component `2 - k % 3` of source pixel `k / 3`. -/
theorem getImage_native (picbuf : Nat → Nat) (height : Int) (matData : Nat → Nat) :
    ∃ out, getImage picbuf 320 height matData = .ok out ∧
      ∀ k, k < 230400 → out k = unpack picbuf (k / 3) (2 - k % 3) := by
  obtain ⟨raw, hraw, hspec⟩ := native_loop picbuf
  obtain ⟨out, hout, hout_spec⟩ := reorder_loop raw matData
  refine ⟨out, ?_, ?_⟩
  · rw [getImage_unfold, if_pos rfl]
    exact bind_ok_eq _ _ raw out hraw hout
  · intro k hk
    have a : (3 * (k / 3) + (2 - k % 3)) / 3 = k / 3 := by omega
    have b : (3 * (k / 3) + (2 - k % 3)) % 3 = 2 - k % 3 := by omega
    have c : 3 * (k / 3) + (2 - k % 3) < 230400 := by omega
    rw [hout_spec k hk]
    unfold load
    rw [hspec, if_pos c, Nat.mod_eq_of_lt (unpack_lt _ _ _), a, b]

theorem unpack_red (picbuf : Nat → Nat) (i : Nat) :
    unpack picbuf i 0 = load picbuf (2 * i + 1) &&& 0xf8 ∧
      load picbuf (2 * i + 1) &&& 0xf8 = load picbuf (2 * i + 1) / 8 * 8 := by
  have hhi := load_lt picbuf (2 * i + 1)
  have e := and_0xf8 _ hhi
  refine ⟨?_, e⟩
  simp only [unpack, if_true]
  rw [e]
  omega

theorem unpack_green (picbuf : Nat → Nat) (i : Nat) :
    unpack picbuf i 1 =
        (load picbuf (2 * i + 1) &&& 0x07) * 32 + (load picbuf (2 * i) &&& 0xe0) / 8 ∧
      (load picbuf (2 * i + 1) &&& 0x07) * 32 + (load picbuf (2 * i) &&& 0xe0) / 8 =
        load picbuf (2 * i + 1) % 8 * 32 + load picbuf (2 * i) / 32 * 4 := by
  have hlo := load_lt picbuf (2 * i)
  have e1 := and_0x07 (load picbuf (2 * i + 1))
  have e2 := and_0xe0 _ hlo
  have e : (load picbuf (2 * i + 1) &&& 0x07) * 32 + (load picbuf (2 * i) &&& 0xe0) / 8 =
      load picbuf (2 * i + 1) % 8 * 32 + load picbuf (2 * i) / 32 * 4 := by
    rw [e1, e2]
    omega
  refine ⟨?_, e⟩
  have h10 : ¬ (1 = 0) := by decide
  simp only [unpack, if_neg h10, if_true]
  rw [e]
  omega

theorem unpack_blue (picbuf : Nat → Nat) (i : Nat) :
    unpack picbuf i 2 = (load picbuf (2 * i) &&& 0x1f) * 8 ∧
      (load picbuf (2 * i) &&& 0x1f) * 8 = load picbuf (2 * i) % 32 * 8 := by
  have e : (load picbuf (2 * i) &&& 0x1f) * 8 = load picbuf (2 * i) % 32 * 8 := by
    rw [and_0x1f]
  refine ⟨?_, e⟩
  have h20 : ¬ (2 = 0) := by decide
  have h21 : ¬ (2 = 1) := by decide
  simp only [unpack, if_neg h20, if_neg h21]
  rw [e]
  omega

/-- C1: on the `picture_width == 320` branch `getImage` returns an image and,
for every pixel index `i < 76800`, with `lo` and `hi` the two source bytes of
the pixel, the output bytes are blue `(lo & 0x1f) * 8`, green
`(hi & 0x07) * 32 + (lo & 0xe0) / 8` and red `hi & 0xf8`, none above 255;
in terms of `v = 256 * hi + lo` they are `(v mod 32) * 8`,
`((v / 32) mod 64) * 4` and `(v / 2048) * 8`. When all 153600 source bytes are
0xFF every pixel is (248, 252, 248). -/
theorem getImage_native_decode (picbuf matData : Nat → Nat) (height : Int) (i : Nat)
    (hi : i < 76800) :
    ∃ out, getImage picbuf 320 height matData = .ok out ∧
      (∀ lo hi v, lo = load picbuf (2 * i) → hi = load picbuf (2 * i + 1) →
        v = 256 * hi + lo →
        (out (3 * i) = (lo &&& 0x1f) * 8 ∧ (lo &&& 0x1f) * 8 ≤ 255) ∧
        (out (3 * i + 1) = (hi &&& 0x07) * 32 + (lo &&& 0xe0) / 8 ∧
          (hi &&& 0x07) * 32 + (lo &&& 0xe0) / 8 ≤ 255) ∧
        (out (3 * i + 2) = hi &&& 0xf8 ∧ hi &&& 0xf8 ≤ 255) ∧
        out (3 * i) = v % 32 * 8 ∧
        out (3 * i + 1) = v / 32 % 64 * 4 ∧
        out (3 * i + 2) = v / 2048 * 8) ∧
      ((∀ k, k < 153600 → load picbuf k = 255) →
        ∀ p, p < 76800 →
          out (3 * p) = 248 ∧ out (3 * p + 1) = 252 ∧ out (3 * p + 2) = 248) := by
  obtain ⟨out, hout, hspec⟩ := getImage_native picbuf height matData
  have hpix : ∀ p, p < 76800 →
      out (3 * p) = unpack picbuf p 2 ∧ out (3 * p + 1) = unpack picbuf p 1 ∧
        out (3 * p + 2) = unpack picbuf p 0 := by
    intro p hp
    have a0 : 3 * p / 3 = p := by omega
    have b0 : 2 - 3 * p % 3 = 2 := by omega
    have a1 : (3 * p + 1) / 3 = p := by omega
    have b1 : 2 - (3 * p + 1) % 3 = 1 := by omega
    have a2 : (3 * p + 2) / 3 = p := by omega
    have b2 : 2 - (3 * p + 2) % 3 = 0 := by omega
    refine ⟨?_, ?_, ?_⟩
    · rw [hspec (3 * p) (by omega), a0, b0]
    · rw [hspec (3 * p + 1) (by omega), a1, b1]
    · rw [hspec (3 * p + 2) (by omega), a2, b2]
  refine ⟨out, hout, ?_, ?_⟩
  · intro lo hi' v hlo hhi hv
    obtain ⟨p0, p1, p2⟩ := hpix i hi
    obtain ⟨r1, r2⟩ := unpack_red picbuf i
    obtain ⟨g1, g2⟩ := unpack_green picbuf i
    obtain ⟨b1, b2⟩ := unpack_blue picbuf i
    have hlo_lt := load_lt picbuf (2 * i)
    have hhi_lt := load_lt picbuf (2 * i + 1)
    subst hlo hhi hv
    rw [p0, p1, p2, b1, g1, r1]
    refine ⟨⟨rfl, ?_⟩, ⟨rfl, ?_⟩, ⟨rfl, ?_⟩, ?_, ?_, ?_⟩
    · rw [b2]; omega
    · rw [g2]; omega
    · rw [r2]; omega
    · rw [b2]; omega
    · rw [g2]; omega
    · rw [r2]; omega
  · intro hff p hp
    obtain ⟨p0, p1, p2⟩ := hpix p hp
    obtain ⟨r1, r2⟩ := unpack_red picbuf p
    obtain ⟨g1, g2⟩ := unpack_green picbuf p
    obtain ⟨b1, b2⟩ := unpack_blue picbuf p
    have hlo := hff (2 * p) (by omega)
    have hhi := hff (2 * p + 1) (by omega)
    rw [p0, p1, p2, b1, g1, r1, b2, g2, r2, hlo, hhi]
    decide

theorem getImage_native_decode_witness :
    (76799 < 76800) ∧
    ∃ out, getImage (fun _ => 255) 320 240 (fun _ => 0) = .ok out ∧
      out (3 * 76799) = 248 ∧ out (3 * 76799 + 1) = 252 ∧ out (3 * 76799 + 2) = 248 := by
  obtain ⟨out, hout, _, hff⟩ :=
    getImage_native_decode (fun _ => 255) (fun _ => 0) 240 76799 (by decide)
  exact ⟨by decide, out, hout, hff (fun _ _ => rfl) 76799 (by decide)⟩

theorem offsetPixel_ok (picbuf : Nat → Nat) (w h : Nat) (m : Nat → Nat)
    (hb : 3 * ((h + 58) * 320 + w + 78) + 2 < 230400) :
    offsetPixel picbuf w h m = .ok (fun j =>
      if j = 3 * ((h + 58) * 320 + w + 78) + 2 then unpack picbuf (h * 320 + w) 2
      else if j = 3 * ((h + 58) * 320 + w + 78) + 1 then unpack picbuf (h * 320 + w) 1
      else if j = 3 * ((h + 58) * 320 + w + 78) + 0 then unpack picbuf (h * 320 + w) 0
      else m j) := by
  have h0 : 3 * ((h + 58) * 320 + w + 78) + 0 < imageSize := by rw [imageSize_eq]; omega
  have h1 : 3 * ((h + 58) * 320 + w + 78) + 1 < imageSize := by rw [imageSize_eq]; omega
  have h2 : 3 * ((h + 58) * 320 + w + 78) + 2 < imageSize := by rw [imageSize_eq]; omega
  simp only [offsetPixel, imageWidth, store, if_pos h0, if_pos h1, if_pos h2, bind, Except.bind]
  rfl

/-- One iteration of the inner loop extends the filled region by one pixel. -/
theorem offsetPixel_step (picbuf : Nat → Nat) (rows w h : Nat) (m : Nat → Nat)
    (hw : w + 78 < 320) (hh : h + 58 < 240)
    (hinv : ∀ k, m k = windowRaw picbuf rows w h k) :
    ∃ m', offsetPixel picbuf w h m = .ok m' ∧ ∀ k, m' k = windowRaw picbuf rows w (h + 1) k := by
  refine ⟨_, offsetPixel_ok picbuf w h m (by omega), ?_⟩
  intro k
  show (if k = 3 * ((h + 58) * 320 + w + 78) + 2 then _
    else if k = 3 * ((h + 58) * 320 + w + 78) + 1 then _
    else if k = 3 * ((h + 58) * 320 + w + 78) + 0 then _ else m k) = _
  by_cases h2 : k = 3 * ((h + 58) * 320 + w + 78) + 2
  · have a : (k / 3 / 320 - 58) * 320 + (k / 3 % 320 - 78) = h * 320 + w := by omega
    have b : k % 3 = 2 := by omega
    rw [if_pos h2, windowRaw, if_pos (Or.inr (by omega)), a, b]
  · by_cases h1 : k = 3 * ((h + 58) * 320 + w + 78) + 1
    · have a : (k / 3 / 320 - 58) * 320 + (k / 3 % 320 - 78) = h * 320 + w := by omega
      have b : k % 3 = 1 := by omega
      rw [if_neg h2, if_pos h1, windowRaw, if_pos (Or.inr (by omega)), a, b]
    · by_cases h0 : k = 3 * ((h + 58) * 320 + w + 78) + 0
      · have a : (k / 3 / 320 - 58) * 320 + (k / 3 % 320 - 78) = h * 320 + w := by omega
        have b : k % 3 = 0 := by omega
        rw [if_neg h2, if_neg h1, if_pos h0, windowRaw, if_pos (Or.inr (by omega)), a, b]
      · rw [if_neg h2, if_neg h1, if_neg h0, hinv k, windowRaw, windowRaw]
        by_cases c : (58 ≤ k / 3 / 320 ∧ k / 3 / 320 < 58 + rows ∧ 78 ≤ k / 3 % 320 ∧
            k / 3 % 320 < 78 + w) ∨
            (k / 3 % 320 = 78 + w ∧ 58 ≤ k / 3 / 320 ∧ k / 3 / 320 < 58 + h)
        · rw [if_pos c, if_pos (by omega)]
        · rw [if_neg c, if_neg (by omega)]

theorem windowRaw_lt (picbuf : Nat → Nat) (rows cols extra k : Nat) :
    windowRaw picbuf rows cols extra k < 256 := by
  unfold windowRaw
  split_ifs
  · exact unpack_lt _ _ _
  · decide

/-- The inner loop fills one more column. -/
theorem inner_loop (picbuf : Nat → Nat) (rows w : Nat) (m : Nat → Nat)
    (hw : w + 78 < 320) (hr : rows + 58 ≤ 240)
    (hinv : ∀ k, m k = windowRaw picbuf rows w 0 k) :
    ∃ m', forLoop (fun h rawImage => offsetPixel picbuf w h rawImage) rows 0 m = .ok m' ∧
      ∀ k, m' k = windowRaw picbuf rows (w + 1) 0 k := by
  obtain ⟨m', hm', hinv'⟩ := forLoop_inv (fun h rawImage => offsetPixel picbuf w h rawImage)
    (fun h t => ∀ k, t k = windowRaw picbuf rows w h k) rows 0 m hinv
    (fun j t _ hj ht => offsetPixel_step picbuf rows w j t hw (by omega) ht)
  refine ⟨m', hm', ?_⟩
  intro k
  rw [hinv' k, windowRaw, windowRaw]
  by_cases c : (58 ≤ k / 3 / 320 ∧ k / 3 / 320 < 58 + rows ∧ 78 ≤ k / 3 % 320 ∧
      k / 3 % 320 < 78 + w) ∨
      (k / 3 % 320 = 78 + w ∧ 58 ≤ k / 3 / 320 ∧ k / 3 / 320 < 58 + (0 + rows))
  · rw [if_pos c, if_pos (by omega)]
  · rw [if_neg c, if_neg (by omega)]

/-- The nested loops of the `else` branch fill exactly the window of `rows`
rows and `cols` columns at offset (58, 78), and do not fault when the window
fits into the 320x240 frame. -/
theorem outer_loop (picbuf : Nat → Nat) (rows cols : Nat)
    (hc : cols + 78 ≤ 320) (hr : rows + 58 ≤ 240) :
    ∃ raw, forLoop (fun w rawImage =>
        forLoop (fun h rawImage => offsetPixel picbuf w h rawImage) rows 0 rawImage)
        cols 0 (fun _ => 0) = .ok raw ∧
      ∀ k, raw k = windowRaw picbuf rows cols 0 k := by
  obtain ⟨raw, hraw, hinv⟩ := forLoop_inv (fun w rawImage =>
      forLoop (fun h rawImage => offsetPixel picbuf w h rawImage) rows 0 rawImage)
    (fun w t => ∀ k, t k = windowRaw picbuf rows w 0 k) cols 0 (fun _ => 0)
    (by
      intro k
      rw [windowRaw, if_neg (by omega)])
    (fun j t _ hj ht => inner_loop picbuf rows j t (by omega) hr ht)
  refine ⟨raw, hraw, ?_⟩
  intro k
  rw [hinv k, Nat.zero_add]

/-- Result of `getImage` on the `else` branch when the window fits: no fault,
and byte `k` of the output is the byte of `rawImage` at the mirrored position
of the same pixel. -/
theorem getImage_offset (picbuf : Nat → Nat) (width height : Int) (matData : Nat → Nat)
    (hne : width ≠ 320) (hw : width + 78 ≤ 320) (hh : height + 58 ≤ 240) :
    ∃ out, getImage picbuf width height matData = .ok out ∧
      ∀ k, k < 230400 →
        out k = windowRaw picbuf height.toNat width.toNat 0 (3 * (k / 3) + (2 - k % 3)) := by
  obtain ⟨raw, hraw, hspec⟩ := outer_loop picbuf height.toNat width.toNat (by omega) (by omega)
  obtain ⟨out, hout, hout_spec⟩ := reorder_loop raw matData
  refine ⟨out, ?_, ?_⟩
  · rw [getImage_unfold, if_neg hne]
    exact bind_ok_eq _ _ raw out hraw hout
  · intro k hk
    rw [hout_spec k hk]
    unfold load
    rw [hspec, Nat.mod_eq_of_lt (windowRaw_lt _ _ _ _ _)]

/-- C2: on the `else` branch (`picture_width != 320`), when the window of
`h` rows and `w` columns at offset (58, 78) fits into the 320x240 frame,
`getImage` returns an image in which every byte of a pixel at row `r`, column
`c` outside rows `58..58+h-1` or outside columns `78..78+w-1` is zero. -/
theorem getImage_offset_border_zero (picbuf matData : Nat → Nat) (w h : Int)
    (hne : w ≠ 320) (hw : w + 78 ≤ 320) (hh : h + 58 ≤ 240) :
    ∃ out, getImage picbuf w h matData = .ok out ∧
      ∀ r c ch : Nat, r < 240 → c < 320 → ch < 3 →
        ((r : Int) < 58 ∨ 58 + h ≤ r ∨ (c : Int) < 78 ∨ 78 + w ≤ c) →
        out (3 * (r * 320 + c) + ch) = 0 := by
  obtain ⟨out, hout, hspec⟩ := getImage_offset picbuf w h matData hne hw hh
  refine ⟨out, hout, ?_⟩
  intro r c ch hr hc hch hout_win
  rw [hspec _ (by omega), windowRaw, if_neg (by omega)]

theorem getImage_offset_border_zero_witness :
    ((160 : Int) ≠ 320 ∧ (160 : Int) + 78 ≤ 320 ∧ (120 : Int) + 58 ≤ 240) ∧
    ∃ out, getImage (fun _ => 255) 160 120 (fun _ => 7) = .ok out ∧
      out (3 * (57 * 320 + 100) + 0) = 0 ∧ out (3 * (100 * 320 + 238) + 2) = 0 := by
  obtain ⟨out, hout, hzero⟩ :=
    getImage_offset_border_zero (fun _ => 255) (fun _ => 7) 160 120
      (by decide) (by decide) (by decide)
  exact ⟨by decide, out, hout,
    hzero 57 100 0 (by decide) (by decide) (by decide) (Or.inl (by decide)),
    hzero 100 238 2 (by decide) (by decide) (by decide) (Or.inr (Or.inr (Or.inr (by decide))))⟩

/-- C10: when the window fits, the pixel that the `else` branch puts at row
`58 + r`, column `78 + c` (for `r < h`, `c < w`) equals the pixel that the
`picture_width == 320` branch puts at row `r`, column `c` for the same buffer:
both unpack the source bytes at `2 * (r * 320 + c)` and `2 * (r * 320 + c) + 1`,
so the source row stride is 320 pixels whatever the reported width. -/
theorem getImage_offset_matches_native (picbuf matData matData' : Nat → Nat) (w h h' : Int)
    (hne : w ≠ 320) (hw : w + 78 ≤ 320) (hh : h + 58 ≤ 240)
    (r c : Nat) (hr : (r : Int) < h) (hc : (c : Int) < w) :
    ∃ out outNative, getImage picbuf w h matData = .ok out ∧
      getImage picbuf 320 h' matData' = .ok outNative ∧
      (∀ ch, ch < 3 →
        out (3 * ((58 + r) * 320 + (78 + c)) + ch) = outNative (3 * (r * 320 + c) + ch)) ∧
      out (3 * ((58 + r) * 320 + (78 + c)) + 0) = (load picbuf (2 * (r * 320 + c)) &&& 0x1f) * 8 ∧
      out (3 * ((58 + r) * 320 + (78 + c)) + 1) =
        (load picbuf (2 * (r * 320 + c) + 1) &&& 0x07) * 32 +
          (load picbuf (2 * (r * 320 + c)) &&& 0xe0) / 8 ∧
      out (3 * ((58 + r) * 320 + (78 + c)) + 2) = load picbuf (2 * (r * 320 + c) + 1) &&& 0xf8 := by
  obtain ⟨out, hout, hspec⟩ := getImage_offset picbuf w h matData hne hw hh
  obtain ⟨outN, houtN, hspecN⟩ := getImage_native picbuf h' matData'
  have key : ∀ ch, ch < 3 →
      out (3 * ((58 + r) * 320 + (78 + c)) + ch) = unpack picbuf (r * 320 + c) (2 - ch) := by
    intro ch hch
    have hk : 3 * ((58 + r) * 320 + (78 + c)) + ch < 230400 := by omega
    have a : ((3 * ((3 * ((58 + r) * 320 + (78 + c)) + ch) / 3) +
        (2 - (3 * ((58 + r) * 320 + (78 + c)) + ch) % 3)) / 3 / 320 - 58) * 320 +
        ((3 * ((3 * ((58 + r) * 320 + (78 + c)) + ch) / 3) +
        (2 - (3 * ((58 + r) * 320 + (78 + c)) + ch) % 3)) / 3 % 320 - 78) = r * 320 + c := by
      omega
    have b : (3 * ((3 * ((58 + r) * 320 + (78 + c)) + ch) / 3) +
        (2 - (3 * ((58 + r) * 320 + (78 + c)) + ch) % 3)) % 3 = 2 - ch := by omega
    rw [hspec _ hk, windowRaw, if_pos (Or.inl (by omega)), a, b]
  have keyN : ∀ ch, ch < 3 →
      outN (3 * (r * 320 + c) + ch) = unpack picbuf (r * 320 + c) (2 - ch) := by
    intro ch hch
    have hk : 3 * (r * 320 + c) + ch < 230400 := by omega
    have a : (3 * (r * 320 + c) + ch) / 3 = r * 320 + c := by omega
    have b : 2 - (3 * (r * 320 + c) + ch) % 3 = 2 - ch := by omega
    rw [hspecN _ hk, a, b]
  refine ⟨out, outN, hout, houtN, ?_, ?_, ?_, ?_⟩
  · intro ch hch
    rw [key ch hch]
    exact (keyN ch hch).symm
  · rw [key 0 (by decide)]
    exact (unpack_blue picbuf _).1
  · rw [key 1 (by decide)]
    exact (unpack_green picbuf _).1
  · rw [key 2 (by decide)]
    exact (unpack_red picbuf _).1

theorem getImage_offset_matches_native_witness :
    ((160 : Int) ≠ 320 ∧ (160 : Int) + 78 ≤ 320 ∧ (120 : Int) + 58 ≤ 240 ∧
      ((1 : Nat) : Int) < 120 ∧ ((2 : Nat) : Int) < 160) ∧
    ∃ out outNative, getImage (fun k => k) 160 120 (fun _ => 7) = .ok out ∧
      getImage (fun k => k) 320 240 (fun _ => 9) = .ok outNative ∧
      out (3 * ((58 + 1) * 320 + (78 + 2)) + 0) = outNative (3 * (1 * 320 + 2) + 0) ∧
      out (3 * ((58 + 1) * 320 + (78 + 2)) + 0) =
        (load (fun k => k) (2 * (1 * 320 + 2)) &&& 0x1f) * 8 := by
  obtain ⟨out, outN, hout, houtN, hall, hblue, _, _⟩ :=
    getImage_offset_matches_native (fun k => k) (fun _ => 7) (fun _ => 9) 160 120 240
      (by decide) (by decide) (by decide) 1 2 (by decide) (by decide)
  exact ⟨by decide, out, outN, hout, houtN, hall 0 (by decide), hblue⟩

/-- C3 (what the code does): with `picture_width = 640` and
`picture_height = 360` the `else` branch is taken without any check and, in
column 0 at row 182, stores at offset `3 * (240 * 320 + 78) = 230634` of the
230400-byte `rawImage`: the decode does not reject the input, it writes past
the end of the buffer. -/
theorem getImage_overflow_640x360 (picbuf matData : Nat → Nat) :
    getImage picbuf 640 360 matData = .error (.writeOutOfBounds 230634) ∧
      ¬ (230634 < imageSize) := by
  constructor
  · rfl
  · decide

end ARDrone
